import Mathlib

set_option linter.unusedVariables false
set_option linter.unnecessarySeqFocus false
set_option maxRecDepth 8000

/-! Shallow embedding of `src/screfinery/schema.py` (pydantic v1 request and
response schemas for the sc-refinery API).

Modelling choices:
* Python `str` values are `List Char`, Python `float` is `ℚ` (every numeric
  value the development touches is exactly representable), `datetime` is an
  opaque `Int` timestamp, Python `int` is `Int`.
* A JSON payload field of base type `α` is a `Fld α`: it is either absent from
  the payload, an explicit `null`, or a value of the declared base type.
* Validation of a schema follows pydantic v1 `validate_model`: fields are
  processed in declaration order; each field contributes its errors (located
  at the field name) and, when it validates, its value to the `values` dict
  seen by later `@validator` methods.  A field absent from the payload takes
  its default (`None` for `Optional` fields, a missing-field error for
  required fields); the default is placed into `values` with the field's
  validators skipped.  A field that fails validation is left out of `values`.
  The model instance is produced iff no error was collected; it records the
  set of explicitly supplied fields (pydantic `__fields_set__`) where a claim
  needs it.
* Errors of elements nested inside a list field are collapsed to a single
  error located at the list field's name (kind `nestedInvalid`); no claim
  inspects the sub-locations pydantic would report there. -/

namespace SCRefinery

/-- One field of an inbound JSON-like payload: absent, explicit null, or a
value of the declared base type. -/
inductive Fld (α : Type) where
  | absent
  | null
  | val (v : α)
deriving DecidableEq

/-- Whether the field was explicitly supplied in the payload (pydantic adds
such fields to `__fields_set__`). -/
def Fld.isSet {α : Type} : Fld α → Bool
  | .absent => false
  | _ => true

/-- Kind of a validation error produced by one of the schemas. -/
inductive ErrKind where
  | missing
  | noneNotAllowed
  | tooLong
  | regexMismatch
  | mismatch
  | notGt
  | notLe
  | nestedInvalid
deriving DecidableEq

/-- A validation error: the field name it is attached to, and its kind. -/
structure Err where
  loc : String
  kind : ErrKind
deriving DecidableEq

instance {ε α : Type} [DecidableEq ε] [DecidableEq α] : DecidableEq (Except ε α) :=
  fun x y =>
    match x, y with
    | .ok a, .ok b =>
      if h : a = b then isTrue (by rw [h])
      else isFalse (by intro hh; cases hh; exact h rfl)
    | .error a, .error b =>
      if h : a = b then isTrue (by rw [h])
      else isFalse (by intro hh; cases hh; exact h rfl)
    | .ok _, .error _ => isFalse (by intro hh; cases hh)
    | .error _, .ok _ => isFalse (by intro hh; cases hh)

/-- Error list carried by a failed validation; a success carries none. -/
def errsOf {α : Type} : Except (List Err) α → List Err
  | .error es => es
  | .ok _ => []

/-- Errors contributed by one field-validation step, located at `loc`. -/
def stepErrs {α : Type} (loc : String) : Except ErrKind α → List Err
  | .ok _ => []
  | .error k => [⟨loc, k⟩]

/-- Value contributed to the `values` dict by one field-validation step:
present exactly when the step succeeded. -/
def stepVal {α : Type} : Except ErrKind α → Option α
  | .ok v => some v
  | .error _ => none

/-- Validation of a required `constr(max_length=m)` field. -/
def validateReqStr (m : Nat) : Fld (List Char) → Except ErrKind (List Char)
  | .absent => .error .missing
  | .null => .error .noneNotAllowed
  | .val s => if s.length ≤ m then .ok s else .error .tooLong

/-- Validation of an `Optional[constr(max_length=m)]` field. -/
def validateOptStr (m : Nat) : Fld (List Char) → Except ErrKind (Option (List Char))
  | .absent => .ok none
  | .null => .ok none
  | .val s => if s.length ≤ m then .ok (some s) else .error .tooLong

/-- Validation of a required unconstrained field (e.g. `int`, `float`,
`bool`, `datetime`). -/
def validateReqAny {α : Type} : Fld α → Except ErrKind α
  | .absent => .error .missing
  | .null => .error .noneNotAllowed
  | .val v => .ok v

/-- Validation of an `Optional` unconstrained field. -/
def validateOptAny {α : Type} : Fld α → Except ErrKind (Option α)
  | .absent => .ok none
  | .null => .ok none
  | .val v => .ok (some v)

/-- Matcher for the tail `[^@]+$` of the mail regex: one or more non-`@`
characters up to the end of the string. -/
def mailAfterAt (l : List Char) : Bool :=
  !l.isEmpty && l.all (fun c => c ≠ '@')

/-- Matcher for `[^@]*@[^@]+$`, entered after at least one leading non-`@`
character has been consumed. -/
def mailContinue : List Char → Bool
  | [] => false
  | c :: cs => if c = '@' then mailAfterAt cs else mailContinue cs

/-- Translation of the `constr` regex check `^[^@]+@[^@]+$` used for `mail`
fields: one or more non-`@` characters, a single `@`, then one or more
non-`@` characters. -/
def mailRegexOk : List Char → Bool
  | [] => false
  | c :: cs => if c = '@' then false else mailContinue cs

/-- The shape the spec describes for a valid mail value: exactly one `@`,
with at least one non-`@` character on each side. -/
def mailShape (s : List Char) : Prop :=
  ∃ a b : List Char, s = a ++ '@' :: b ∧ a ≠ [] ∧ b ≠ [] ∧ '@' ∉ a ∧ '@' ∉ b

/-- Validation of the required field `mail: constr(max_length=250, regex=...)`
(pydantic checks the length constraint before the regex). -/
def validateMailReq : Fld (List Char) → Except ErrKind (List Char)
  | .absent => .error .missing
  | .null => .error .noneNotAllowed
  | .val s =>
    if s.length ≤ 250 then
      if mailRegexOk s then .ok s else .error .regexMismatch
    else .error .tooLong

/-- Validation of the optional field
`mail: Optional[constr(max_length=250, regex=...)]`. -/
def validateMailOpt : Fld (List Char) → Except ErrKind (Option (List Char))
  | .absent => .ok none
  | .null => .ok none
  | .val s =>
    if s.length ≤ 250 then
      if mailRegexOk s then .ok (some s) else .error .regexMismatch
    else .error .tooLong

/-- Validation of `scopes: Optional[List[constr(max_length=50)]]`. -/
def validateScopes : Fld (List (List Char)) → Except ErrKind (Option (List (List Char)))
  | .absent => .ok none
  | .null => .ok none
  | .val xs =>
    if xs.all (fun s => s.length ≤ 50) then .ok (some xs) else .error .nestedInvalid

/-- The `passwords_match` validator of `UserCreate`, run on the value of
`password_confirm` after its own `constr` check: `if 'password' in values and
value != values['password']: raise ValueError('passwords do not match')`.
`pwInValues` is `values.get('password')`: present iff the `password` field
validated. -/
def validatePCCreate (pwInValues : Option (List Char)) :
    Fld (List Char) → Except ErrKind (List Char)
  | .absent => .error .missing
  | .null => .error .noneNotAllowed
  | .val s =>
    if s.length ≤ 250 then
      match pwInValues with
      | some pw => if s = pw then .ok s else .error .mismatch
      | none => .ok s
    else .error .tooLong

/-- The `passwords_match` validator of `UserUpdate`.  Here `password` is
`Optional`, so `values['password']` is itself an `Option`: when the payload
omits `password` the default `None` is in `values`, and the comparison against
a supplied `password_confirm` still happens.  The validator is skipped when
`password_confirm` itself is absent (pydantic runs validators with
`always=False` only on supplied values), but runs on an explicit null. -/
def validatePCUpdate (pwInValues : Option (Option (List Char))) :
    Fld (List Char) → Except ErrKind (Option (List Char))
  | .absent => .ok none
  | .null =>
    match pwInValues with
    | some pw => if pw = none then .ok none else .error .mismatch
    | none => .ok none
  | .val s =>
    if s.length ≤ 250 then
      match pwInValues with
      | some pw => if pw = some s then .ok (some s) else .error .mismatch
      | none => .ok (some s)
    else .error .tooLong

/-- Inbound payload for the `UserCreate` schema. -/
structure UserCreatePayload where
  name : Fld (List Char)
  mail : Fld (List Char)
  password : Fld (List Char)
  password_confirm : Fld (List Char)
  is_google : Fld Bool
  is_active : Fld Bool
  scopes : Fld (List (List Char))
deriving DecidableEq

/-- Parsed `UserCreate` model. -/
structure UserCreate where
  name : List Char
  mail : List Char
  password : List Char
  password_confirm : List Char
  is_google : Bool
  is_active : Bool
  scopes : Option (List (List Char))
deriving DecidableEq

/-- Errors collected by validating a `UserCreate` payload, in field
declaration order. -/
def userCreateErrs (p : UserCreatePayload) : List Err :=
  stepErrs "name" (validateReqStr 50 p.name) ++
  stepErrs "mail" (validateMailReq p.mail) ++
  stepErrs "password" (validateReqStr 250 p.password) ++
  stepErrs "password_confirm"
    (validatePCCreate (stepVal (validateReqStr 250 p.password)) p.password_confirm) ++
  stepErrs "is_google" (validateReqAny p.is_google) ++
  stepErrs "is_active" (validateReqAny p.is_active) ++
  stepErrs "scopes" (validateScopes p.scopes)

/-- Field values collected by validating a `UserCreate` payload; `some` iff
every field validated. -/
def userCreateVals (p : UserCreatePayload) : Option UserCreate :=
  match validateReqStr 50 p.name, validateMailReq p.mail,
      validateReqStr 250 p.password,
      validatePCCreate (stepVal (validateReqStr 250 p.password)) p.password_confirm,
      validateReqAny p.is_google, validateReqAny p.is_active,
      validateScopes p.scopes with
  | .ok n, .ok ml, .ok pw, .ok pc, .ok g, .ok a, .ok sc =>
    some ⟨n, ml, pw, pc, g, a, sc⟩
  | _, _, _, _, _, _, _ => none

/-- Validation of a `UserCreate` payload: the parsed model when no error was
collected, the error list otherwise. -/
def validate_UserCreate (p : UserCreatePayload) : Except (List Err) UserCreate :=
  match userCreateVals p with
  | some m => .ok m
  | none => .error (userCreateErrs p)

/-- Inbound payload for the `UserUpdate` schema. -/
structure UserUpdatePayload where
  name : Fld (List Char)
  mail : Fld (List Char)
  password : Fld (List Char)
  password_confirm : Fld (List Char)
  is_google : Fld Bool
  is_active : Fld Bool
  scopes : Fld (List (List Char))
deriving DecidableEq

/-- Parsed `UserUpdate` model, together with pydantic's `__fields_set__`
(the names of the fields explicitly supplied in the payload), which is what
keeps an omitted field distinguishable from an explicit null. -/
structure UserUpdate where
  name : Option (List Char)
  mail : Option (List Char)
  password : Option (List Char)
  password_confirm : Option (List Char)
  is_google : Option Bool
  is_active : Option Bool
  scopes : Option (List (List Char))
  fieldsSet : List String
deriving DecidableEq

/-- The `__fields_set__` of a `UserUpdate` payload: names of fields present
in the input, in declaration order. -/
def userUpdateFieldsSet (p : UserUpdatePayload) : List String :=
  (if p.name.isSet then ["name"] else []) ++
  (if p.mail.isSet then ["mail"] else []) ++
  (if p.password.isSet then ["password"] else []) ++
  (if p.password_confirm.isSet then ["password_confirm"] else []) ++
  (if p.is_google.isSet then ["is_google"] else []) ++
  (if p.is_active.isSet then ["is_active"] else []) ++
  (if p.scopes.isSet then ["scopes"] else [])

/-- Errors collected by validating a `UserUpdate` payload. -/
def userUpdateErrs (p : UserUpdatePayload) : List Err :=
  stepErrs "name" (validateOptStr 50 p.name) ++
  stepErrs "mail" (validateMailOpt p.mail) ++
  stepErrs "password" (validateOptStr 250 p.password) ++
  stepErrs "password_confirm"
    (validatePCUpdate (stepVal (validateOptStr 250 p.password)) p.password_confirm) ++
  stepErrs "is_google" (validateOptAny p.is_google) ++
  stepErrs "is_active" (validateOptAny p.is_active) ++
  stepErrs "scopes" (validateScopes p.scopes)

/-- Field values collected by validating a `UserUpdate` payload. -/
def userUpdateVals (p : UserUpdatePayload) : Option UserUpdate :=
  match validateOptStr 50 p.name, validateMailOpt p.mail,
      validateOptStr 250 p.password,
      validatePCUpdate (stepVal (validateOptStr 250 p.password)) p.password_confirm,
      validateOptAny p.is_google, validateOptAny p.is_active,
      validateScopes p.scopes with
  | .ok n, .ok ml, .ok pw, .ok pc, .ok g, .ok a, .ok sc =>
    some ⟨n, ml, pw, pc, g, a, sc, userUpdateFieldsSet p⟩
  | _, _, _, _, _, _, _ => none

/-- Validation of a `UserUpdate` payload. -/
def validate_UserUpdate (p : UserUpdatePayload) : Except (List Err) UserUpdate :=
  match userUpdateVals p with
  | some m => .ok m
  | none => .error (userUpdateErrs p)

/-- Inbound payload for `OreUpdate`. -/
structure OreUpdatePayload where
  name : Fld (List Char)
deriving DecidableEq

/-- Parsed `OreUpdate` model, with pydantic's `__fields_set__`. -/
structure OreUpdate where
  name : Option (List Char)
  fieldsSet : List String
deriving DecidableEq

/-- The `__fields_set__` of an `OreUpdate` payload. -/
def oreUpdateFieldsSet (p : OreUpdatePayload) : List String :=
  if p.name.isSet then ["name"] else []

/-- Errors collected by validating an `OreUpdate` payload. -/
def oreUpdateErrs (p : OreUpdatePayload) : List Err :=
  stepErrs "name" (validateOptStr 50 p.name)

/-- Field values collected by validating an `OreUpdate` payload. -/
def oreUpdateVals (p : OreUpdatePayload) : Option OreUpdate :=
  match validateOptStr 50 p.name with
  | .ok n => some ⟨n, oreUpdateFieldsSet p⟩
  | _ => none

/-- Validation of an `OreUpdate` payload. -/
def validate_OreUpdate (p : OreUpdatePayload) : Except (List Err) OreUpdate :=
  match oreUpdateVals p with
  | some m => .ok m
  | none => .error (oreUpdateErrs p)

/-- An element of a `StationUpdate.efficiencies` list (the `StationOreEfficiency`
schema as nested input, all fields carried with their base types). -/
structure StationEffElem where
  efficiency_bonus : ℚ
  ore_id : Int
  ore_name : Option (List Char)
deriving DecidableEq

/-- Validation of `efficiencies: Optional[List[StationOreEfficiency]]`; the
element schema imposes no value constraints, so typed elements always pass. -/
def validateOptStationEffList :
    Fld (List StationEffElem) → Except ErrKind (Option (List StationEffElem))
  | .absent => .ok none
  | .null => .ok none
  | .val xs => .ok (some xs)

/-- Inbound payload for `StationUpdate`. -/
structure StationUpdatePayload where
  name : Fld (List Char)
  efficiencies : Fld (List StationEffElem)
deriving DecidableEq

/-- Parsed `StationUpdate` model, with pydantic's `__fields_set__`. -/
structure StationUpdate where
  name : Option (List Char)
  efficiencies : Option (List StationEffElem)
  fieldsSet : List String
deriving DecidableEq

/-- The `__fields_set__` of a `StationUpdate` payload. -/
def stationUpdateFieldsSet (p : StationUpdatePayload) : List String :=
  (if p.name.isSet then ["name"] else []) ++
  (if p.efficiencies.isSet then ["efficiencies"] else [])

/-- Errors collected by validating a `StationUpdate` payload. -/
def stationUpdateErrs (p : StationUpdatePayload) : List Err :=
  stepErrs "name" (validateOptStr 50 p.name) ++
  stepErrs "efficiencies" (validateOptStationEffList p.efficiencies)

/-- Field values collected by validating a `StationUpdate` payload. -/
def stationUpdateVals (p : StationUpdatePayload) : Option StationUpdate :=
  match validateOptStr 50 p.name, validateOptStationEffList p.efficiencies with
  | .ok n, .ok e => some ⟨n, e, stationUpdateFieldsSet p⟩
  | _, _ => none

/-- Validation of a `StationUpdate` payload. -/
def validate_StationUpdate (p : StationUpdatePayload) : Except (List Err) StationUpdate :=
  match stationUpdateVals p with
  | some m => .ok m
  | none => .error (stationUpdateErrs p)

/-- An element of a `MethodUpdate.efficiencies` list (the `MethodOreEfficiency`
schema as nested input). -/
structure MethodEffElem where
  efficiency : ℚ
  duration : ℚ
  ore_id : Int
  ore_name : Option (List Char)
deriving DecidableEq

/-- The numeric constraints of the `MethodOreEfficiency` element schema:
`efficiency: confloat(gt=0, le=1)` and `duration: confloat(gt=0)`. -/
def methodEffElemOk (x : MethodEffElem) : Bool :=
  (0 < x.efficiency) && (x.efficiency ≤ 1) && (0 < x.duration)

/-- Validation of `efficiencies: Optional[List[MethodOreEfficiency]]`: every
element must satisfy the element schema's numeric constraints. -/
def validateOptMethodEffList :
    Fld (List MethodEffElem) → Except ErrKind (Option (List MethodEffElem))
  | .absent => .ok none
  | .null => .ok none
  | .val xs => if xs.all methodEffElemOk then .ok (some xs) else .error .nestedInvalid

/-- Inbound payload for `MethodUpdate`. -/
structure MethodUpdatePayload where
  name : Fld (List Char)
  efficiencies : Fld (List MethodEffElem)
deriving DecidableEq

/-- Parsed `MethodUpdate` model, with pydantic's `__fields_set__`. -/
structure MethodUpdate where
  name : Option (List Char)
  efficiencies : Option (List MethodEffElem)
  fieldsSet : List String
deriving DecidableEq

/-- The `__fields_set__` of a `MethodUpdate` payload. -/
def methodUpdateFieldsSet (p : MethodUpdatePayload) : List String :=
  (if p.name.isSet then ["name"] else []) ++
  (if p.efficiencies.isSet then ["efficiencies"] else [])

/-- Errors collected by validating a `MethodUpdate` payload. -/
def methodUpdateErrs (p : MethodUpdatePayload) : List Err :=
  stepErrs "name" (validateOptStr 50 p.name) ++
  stepErrs "efficiencies" (validateOptMethodEffList p.efficiencies)

/-- Field values collected by validating a `MethodUpdate` payload. -/
def methodUpdateVals (p : MethodUpdatePayload) : Option MethodUpdate :=
  match validateOptStr 50 p.name, validateOptMethodEffList p.efficiencies with
  | .ok n, .ok e => some ⟨n, e, methodUpdateFieldsSet p⟩
  | _, _ => none

/-- Validation of a `MethodUpdate` payload. -/
def validate_MethodUpdate (p : MethodUpdatePayload) : Except (List Err) MethodUpdate :=
  match methodUpdateVals p with
  | some m => .ok m
  | none => .error (methodUpdateErrs p)

/-- The `Related` response schema: a minimal id/name pair for N:M relations. -/
structure Related where
  id : Int
  name : List Char
deriving DecidableEq

/-- Inbound payload for `MiningSessionUpdate`. -/
structure MiningSessionUpdatePayload where
  name : Fld (List Char)
  archived : Fld Int
  yield_scu : Fld ℚ
  yield_uec : Fld ℚ
  users_invited : Fld (List Related)
deriving DecidableEq

/-- Parsed `MiningSessionUpdate` model, with pydantic's `__fields_set__`. -/
structure MiningSessionUpdate where
  name : Option (List Char)
  archived : Option Int
  yield_scu : Option ℚ
  yield_uec : Option ℚ
  users_invited : Option (List Related)
  fieldsSet : List String
deriving DecidableEq

/-- The `__fields_set__` of a `MiningSessionUpdate` payload. -/
def miningSessionUpdateFieldsSet (p : MiningSessionUpdatePayload) : List String :=
  (if p.name.isSet then ["name"] else []) ++
  (if p.archived.isSet then ["archived"] else []) ++
  (if p.yield_scu.isSet then ["yield_scu"] else []) ++
  (if p.yield_uec.isSet then ["yield_uec"] else []) ++
  (if p.users_invited.isSet then ["users_invited"] else [])

/-- Errors collected by validating a `MiningSessionUpdate` payload. -/
def miningSessionUpdateErrs (p : MiningSessionUpdatePayload) : List Err :=
  stepErrs "name" (validateOptStr 50 p.name) ++
  stepErrs "archived" (validateOptAny p.archived) ++
  stepErrs "yield_scu" (validateOptAny p.yield_scu) ++
  stepErrs "yield_uec" (validateOptAny p.yield_uec) ++
  stepErrs "users_invited" (validateOptAny p.users_invited)

/-- Field values collected by validating a `MiningSessionUpdate` payload. -/
def miningSessionUpdateVals (p : MiningSessionUpdatePayload) : Option MiningSessionUpdate :=
  match validateOptStr 50 p.name, validateOptAny p.archived,
      validateOptAny p.yield_scu, validateOptAny p.yield_uec,
      validateOptAny p.users_invited with
  | .ok n, .ok ar, .ok ys, .ok yu, .ok ui =>
    some ⟨n, ar, ys, yu, ui, miningSessionUpdateFieldsSet p⟩
  | _, _, _, _, _ => none

/-- Validation of a `MiningSessionUpdate` payload. -/
def validate_MiningSessionUpdate (p : MiningSessionUpdatePayload) :
    Except (List Err) MiningSessionUpdate :=
  match miningSessionUpdateVals p with
  | some m => .ok m
  | none => .error (miningSessionUpdateErrs p)

/-- Inbound payload for `FriendshipUpdate`.  Note that `user_id: int` and
`friend_id: int` are declared without `Optional` in the source, so they are
required fields. -/
structure FriendshipUpdatePayload where
  user_id : Fld Int
  user_name : Fld (List Char)
  friend_id : Fld Int
  friend_name : Fld (List Char)
  confirmed : Fld Int
  name : Fld (List Char)
deriving DecidableEq

/-- Parsed `FriendshipUpdate` model, with pydantic's `__fields_set__`. -/
structure FriendshipUpdate where
  user_id : Int
  user_name : Option (List Char)
  friend_id : Int
  friend_name : Option (List Char)
  confirmed : Option Int
  name : Option (List Char)
  fieldsSet : List String
deriving DecidableEq

/-- The `__fields_set__` of a `FriendshipUpdate` payload. -/
def friendshipUpdateFieldsSet (p : FriendshipUpdatePayload) : List String :=
  (if p.user_id.isSet then ["user_id"] else []) ++
  (if p.user_name.isSet then ["user_name"] else []) ++
  (if p.friend_id.isSet then ["friend_id"] else []) ++
  (if p.friend_name.isSet then ["friend_name"] else []) ++
  (if p.confirmed.isSet then ["confirmed"] else []) ++
  (if p.name.isSet then ["name"] else [])

/-- Errors collected by validating a `FriendshipUpdate` payload. -/
def friendshipUpdateErrs (p : FriendshipUpdatePayload) : List Err :=
  stepErrs "user_id" (validateReqAny p.user_id) ++
  stepErrs "user_name" (validateOptStr 50 p.user_name) ++
  stepErrs "friend_id" (validateReqAny p.friend_id) ++
  stepErrs "friend_name" (validateOptStr 50 p.friend_name) ++
  stepErrs "confirmed" (validateOptAny p.confirmed) ++
  stepErrs "name" (validateOptStr 50 p.name)

/-- Field values collected by validating a `FriendshipUpdate` payload. -/
def friendshipUpdateVals (p : FriendshipUpdatePayload) : Option FriendshipUpdate :=
  match validateReqAny p.user_id, validateOptStr 50 p.user_name,
      validateReqAny p.friend_id, validateOptStr 50 p.friend_name,
      validateOptAny p.confirmed, validateOptStr 50 p.name with
  | .ok ui, .ok un, .ok fi, .ok fn, .ok c, .ok n =>
    some ⟨ui, un, fi, fn, c, n, friendshipUpdateFieldsSet p⟩
  | _, _, _, _, _, _ => none

/-- Validation of a `FriendshipUpdate` payload. -/
def validate_FriendshipUpdate (p : FriendshipUpdatePayload) :
    Except (List Err) FriendshipUpdate :=
  match friendshipUpdateVals p with
  | some m => .ok m
  | none => .error (friendshipUpdateErrs p)

/-- Validation of `efficiency: confloat(gt=0, le=1)` (pydantic checks the
`gt` bound, then the `le` bound). -/
def validateEfficiency : Fld ℚ → Except ErrKind ℚ
  | .absent => .error .missing
  | .null => .error .noneNotAllowed
  | .val q => if 0 < q then (if q ≤ 1 then .ok q else .error .notLe) else .error .notGt

/-- Validation of `duration: confloat(gt=0)`. -/
def validateDuration : Fld ℚ → Except ErrKind ℚ
  | .absent => .error .missing
  | .null => .error .noneNotAllowed
  | .val q => if 0 < q then .ok q else .error .notGt

/-- Inbound payload for `MethodOreEfficiency`. -/
structure MethodOreEfficiencyPayload where
  efficiency : Fld ℚ
  duration : Fld ℚ
  ore_id : Fld Int
  ore_name : Fld (List Char)
deriving DecidableEq

/-- Parsed `MethodOreEfficiency` model. -/
structure MethodOreEfficiency where
  efficiency : ℚ
  duration : ℚ
  ore_id : Int
  ore_name : Option (List Char)
deriving DecidableEq

/-- Errors collected by validating a `MethodOreEfficiency` payload. -/
def methodOreEfficiencyErrs (p : MethodOreEfficiencyPayload) : List Err :=
  stepErrs "efficiency" (validateEfficiency p.efficiency) ++
  stepErrs "duration" (validateDuration p.duration) ++
  stepErrs "ore_id" (validateReqAny p.ore_id) ++
  stepErrs "ore_name" (validateOptAny p.ore_name)

/-- Field values collected by validating a `MethodOreEfficiency` payload. -/
def methodOreEfficiencyVals (p : MethodOreEfficiencyPayload) : Option MethodOreEfficiency :=
  match validateEfficiency p.efficiency, validateDuration p.duration,
      validateReqAny p.ore_id, validateOptAny p.ore_name with
  | .ok e, .ok d, .ok oi, .ok onm => some ⟨e, d, oi, onm⟩
  | _, _, _, _ => none

/-- Validation of a `MethodOreEfficiency` payload. -/
def validate_MethodOreEfficiency (p : MethodOreEfficiencyPayload) :
    Except (List Err) MethodOreEfficiency :=
  match methodOreEfficiencyVals p with
  | some m => .ok m
  | none => .error (methodOreEfficiencyErrs p)

/-- Inbound payload for `StationOreEfficiency`. -/
structure StationOreEfficiencyPayload where
  efficiency_bonus : Fld ℚ
  ore_id : Fld Int
  ore_name : Fld (List Char)
deriving DecidableEq

/-- Parsed `StationOreEfficiency` model. -/
structure StationOreEfficiency where
  efficiency_bonus : ℚ
  ore_id : Int
  ore_name : Option (List Char)
deriving DecidableEq

/-- Errors collected by validating a `StationOreEfficiency` payload. -/
def stationOreEfficiencyErrs (p : StationOreEfficiencyPayload) : List Err :=
  stepErrs "efficiency_bonus" (validateReqAny p.efficiency_bonus) ++
  stepErrs "ore_id" (validateReqAny p.ore_id) ++
  stepErrs "ore_name" (validateOptAny p.ore_name)

/-- Field values collected by validating a `StationOreEfficiency` payload. -/
def stationOreEfficiencyVals (p : StationOreEfficiencyPayload) : Option StationOreEfficiency :=
  match validateReqAny p.efficiency_bonus, validateReqAny p.ore_id,
      validateOptAny p.ore_name with
  | .ok e, .ok oi, .ok onm => some ⟨e, oi, onm⟩
  | _, _, _ => none

/-- Validation of a `StationOreEfficiency` payload. -/
def validate_StationOreEfficiency (p : StationOreEfficiencyPayload) :
    Except (List Err) StationOreEfficiency :=
  match stationOreEfficiencyVals p with
  | some m => .ok m
  | none => .error (stationOreEfficiencyErrs p)

/-- A related ORM object exposing a `.name` attribute (the resolved `ore`,
`user` or `friend` relation of a persisted record). -/
structure OrmRef where
  name : List Char
deriving DecidableEq

/-- Failure of a `from_orm` projection: either the attribute access
`obj.<relation>.name` raised because the relation was `None`
(Python `AttributeError`), or the constructed payload failed the schema's
own validation. -/
inductive FromOrmError where
  | attributeError
  | validationError (es : List Err)
deriving DecidableEq

/-- Persisted-record-like source for `StationOreEfficiency.from_orm`; the
`ore` relation may be unresolved (`None`). -/
structure StationOreEffOrm where
  efficiency_bonus : ℚ
  ore_id : Int
  ore : Option OrmRef
deriving DecidableEq

/-- Projection `StationOreEfficiency.from_orm`: builds the keyword arguments
`efficiency_bonus=obj.efficiency_bonus, ore_id=obj.ore_id,
ore_name=obj.ore.name` — the last access raises when `obj.ore` is `None` —
and then constructs (validates) the model. -/
def StationOreEfficiency.from_orm (obj : StationOreEffOrm) :
    Except FromOrmError StationOreEfficiency :=
  match obj.ore with
  | none => .error .attributeError
  | some o =>
    match validate_StationOreEfficiency
        ⟨.val obj.efficiency_bonus, .val obj.ore_id, .val o.name⟩ with
    | .ok m => .ok m
    | .error es => .error (.validationError es)

/-- Persisted-record-like source for `MethodOreEfficiency.from_orm`. -/
structure MethodOreEffOrm where
  efficiency : ℚ
  duration : ℚ
  ore_id : Int
  ore : Option OrmRef
deriving DecidableEq

/-- Projection `MethodOreEfficiency.from_orm`: builds the keyword arguments
(`ore_name=obj.ore.name` raises when `obj.ore` is `None`) and then
constructs (validates) the model. -/
def MethodOreEfficiency.from_orm (obj : MethodOreEffOrm) :
    Except FromOrmError MethodOreEfficiency :=
  match obj.ore with
  | none => .error .attributeError
  | some o =>
    match validate_MethodOreEfficiency
        ⟨.val obj.efficiency, .val obj.duration, .val obj.ore_id, .val o.name⟩ with
    | .ok m => .ok m
    | .error es => .error (.validationError es)

/-- The `Friendship` response schema. -/
structure Friendship where
  user_id : Int
  user_name : List Char
  friend_id : Int
  friend_name : List Char
  created : Int
  confirmed : Option Int
deriving DecidableEq

/-- Persisted-record-like source for `Friendship.from_orm`: scalar columns,
resolved `user` and `friend` relation objects, and possibly-stale stored
denormalized name columns (which the projection never reads). -/
structure FriendshipOrm where
  user_id : Int
  user : OrmRef
  friend_id : Int
  friend : OrmRef
  user_name : List Char
  friend_name : List Char
  created : Int
  confirmed : Option Int
deriving DecidableEq

/-- Projection `Friendship.from_orm`: copies `user_id`, `friend_id`,
`created`, `confirmed` directly and derives `user_name`/`friend_name` from
`friendship.user.name`/`friendship.friend.name`. -/
def Friendship.from_orm (f : FriendshipOrm) : Friendship :=
  ⟨f.user_id, f.user.name, f.friend_id, f.friend.name, f.created, f.confirmed⟩

/-- The generic list envelope `ListResponse`. -/
structure ListResponse (ItemT : Type) where
  total_count : Int
  items : List ItemT
deriving DecidableEq

/-- Inbound data for a `ListResponse`. -/
structure ListResponsePayload (ItemT : Type) where
  total_count : Fld Int
  items : Fld (List ItemT)
deriving DecidableEq

/-- Errors collected by validating a `ListResponse` payload (both fields are
required; no constraint relates `total_count` to `items`). -/
def listResponseErrs {ItemT : Type} (p : ListResponsePayload ItemT) : List Err :=
  stepErrs "total_count" (validateReqAny p.total_count) ++
  stepErrs "items" (validateReqAny p.items)

/-- Field values collected by validating a `ListResponse` payload. -/
def listResponseVals {ItemT : Type} (p : ListResponsePayload ItemT) :
    Option (ListResponse ItemT) :=
  match validateReqAny p.total_count, validateReqAny p.items with
  | .ok tc, .ok its => some ⟨tc, its⟩
  | _, _ => none

/-- Validation of a `ListResponse` payload. -/
def validate_ListResponse {ItemT : Type} (p : ListResponsePayload ItemT) :
    Except (List Err) (ListResponse ItemT) :=
  match listResponseVals p with
  | some m => .ok m
  | none => .error (listResponseErrs p)

/-! Helper lemmas about the validation machinery. -/

theorem mem_stepErrs {α : Type} {loc : String} {r : Except ErrKind α} {e : Err}
    (h : e ∈ stepErrs loc r) : e.loc = loc ∧ r = .error e.kind := by
  cases r with
  | ok v => simp [stepErrs] at h
  | error k =>
    simp [stepErrs] at h
    subst h
    exact ⟨rfl, rfl⟩

theorem stepErrs_ok {α : Type} (loc : String) {r : Except ErrKind α} {v : α}
    (h : r = .ok v) : stepErrs loc r = [] := by
  subst h; rfl

theorem validateOptStr_ne_missing (m : Nat) (f : Fld (List Char)) :
    validateOptStr m f ≠ .error .missing := by
  cases f <;> simp [validateOptStr] <;> split <;> simp

theorem validateOptAny_ne_missing {α : Type} (f : Fld α) :
    validateOptAny f ≠ .error .missing := by
  cases f <;> simp [validateOptAny]

theorem validateMailOpt_ne_missing (f : Fld (List Char)) :
    validateMailOpt f ≠ .error .missing := by
  cases f <;> simp [validateMailOpt] <;> split <;> (try split) <;> simp

theorem validateScopes_ne_missing (f : Fld (List (List Char))) :
    validateScopes f ≠ .error .missing := by
  cases f <;> simp [validateScopes] <;> split <;> simp

theorem validatePCUpdate_ne_missing (pw : Option (Option (List Char)))
    (f : Fld (List Char)) : validatePCUpdate pw f ≠ .error .missing := by
  cases f <;> cases pw <;> simp [validatePCUpdate] <;> split <;> (try split) <;> simp

theorem validateOptStationEffList_ne_missing (f : Fld (List StationEffElem)) :
    validateOptStationEffList f ≠ .error .missing := by
  cases f <;> simp [validateOptStationEffList]

theorem validateOptMethodEffList_ne_missing (f : Fld (List MethodEffElem)) :
    validateOptMethodEffList f ≠ .error .missing := by
  cases f <;> simp [validateOptMethodEffList] <;> split <;> simp

theorem userCreateVals_some_errs (p : UserCreatePayload) (m : UserCreate)
    (h : userCreateVals p = some m) : userCreateErrs p = [] := by
  unfold userCreateVals at h
  split at h <;> simp_all [userCreateErrs, stepErrs]

theorem errsOf_validate_UserCreate (p : UserCreatePayload) :
    errsOf (validate_UserCreate p) = userCreateErrs p := by
  cases hv : userCreateVals p with
  | some m =>
    simp [validate_UserCreate, hv, errsOf, userCreateVals_some_errs p m hv]
  | none => simp [validate_UserCreate, hv, errsOf]

theorem userUpdateVals_some_errs (p : UserUpdatePayload) (m : UserUpdate)
    (h : userUpdateVals p = some m) : userUpdateErrs p = [] := by
  unfold userUpdateVals at h
  split at h <;> simp_all [userUpdateErrs, stepErrs]

theorem errsOf_validate_UserUpdate (p : UserUpdatePayload) :
    errsOf (validate_UserUpdate p) = userUpdateErrs p := by
  cases hv : userUpdateVals p with
  | some m =>
    simp [validate_UserUpdate, hv, errsOf, userUpdateVals_some_errs p m hv]
  | none => simp [validate_UserUpdate, hv, errsOf]

theorem oreUpdateVals_some_errs (p : OreUpdatePayload) (m : OreUpdate)
    (h : oreUpdateVals p = some m) : oreUpdateErrs p = [] := by
  unfold oreUpdateVals at h
  split at h <;> simp_all [oreUpdateErrs, stepErrs]

theorem errsOf_validate_OreUpdate (p : OreUpdatePayload) :
    errsOf (validate_OreUpdate p) = oreUpdateErrs p := by
  cases hv : oreUpdateVals p with
  | some m =>
    simp [validate_OreUpdate, hv, errsOf, oreUpdateVals_some_errs p m hv]
  | none => simp [validate_OreUpdate, hv, errsOf]

theorem stationUpdateVals_some_errs (p : StationUpdatePayload) (m : StationUpdate)
    (h : stationUpdateVals p = some m) : stationUpdateErrs p = [] := by
  unfold stationUpdateVals at h
  split at h <;> simp_all [stationUpdateErrs, stepErrs]

theorem errsOf_validate_StationUpdate (p : StationUpdatePayload) :
    errsOf (validate_StationUpdate p) = stationUpdateErrs p := by
  cases hv : stationUpdateVals p with
  | some m =>
    simp [validate_StationUpdate, hv, errsOf, stationUpdateVals_some_errs p m hv]
  | none => simp [validate_StationUpdate, hv, errsOf]

theorem methodUpdateVals_some_errs (p : MethodUpdatePayload) (m : MethodUpdate)
    (h : methodUpdateVals p = some m) : methodUpdateErrs p = [] := by
  unfold methodUpdateVals at h
  split at h <;> simp_all [methodUpdateErrs, stepErrs]

theorem errsOf_validate_MethodUpdate (p : MethodUpdatePayload) :
    errsOf (validate_MethodUpdate p) = methodUpdateErrs p := by
  cases hv : methodUpdateVals p with
  | some m =>
    simp [validate_MethodUpdate, hv, errsOf, methodUpdateVals_some_errs p m hv]
  | none => simp [validate_MethodUpdate, hv, errsOf]

theorem miningSessionUpdateVals_some_errs (p : MiningSessionUpdatePayload)
    (m : MiningSessionUpdate) (h : miningSessionUpdateVals p = some m) :
    miningSessionUpdateErrs p = [] := by
  unfold miningSessionUpdateVals at h
  split at h <;> simp_all [miningSessionUpdateErrs, stepErrs]

theorem errsOf_validate_MiningSessionUpdate (p : MiningSessionUpdatePayload) :
    errsOf (validate_MiningSessionUpdate p) = miningSessionUpdateErrs p := by
  cases hv : miningSessionUpdateVals p with
  | some m =>
    simp [validate_MiningSessionUpdate, hv, errsOf,
      miningSessionUpdateVals_some_errs p m hv]
  | none => simp [validate_MiningSessionUpdate, hv, errsOf]

theorem friendshipUpdateVals_some_errs (p : FriendshipUpdatePayload)
    (m : FriendshipUpdate) (h : friendshipUpdateVals p = some m) :
    friendshipUpdateErrs p = [] := by
  unfold friendshipUpdateVals at h
  split at h <;> simp_all [friendshipUpdateErrs, stepErrs]

theorem errsOf_validate_FriendshipUpdate (p : FriendshipUpdatePayload) :
    errsOf (validate_FriendshipUpdate p) = friendshipUpdateErrs p := by
  cases hv : friendshipUpdateVals p with
  | some m =>
    simp [validate_FriendshipUpdate, hv, errsOf, friendshipUpdateVals_some_errs p m hv]
  | none => simp [validate_FriendshipUpdate, hv, errsOf]

theorem methodOreEfficiencyVals_some_errs (p : MethodOreEfficiencyPayload)
    (m : MethodOreEfficiency) (h : methodOreEfficiencyVals p = some m) :
    methodOreEfficiencyErrs p = [] := by
  unfold methodOreEfficiencyVals at h
  split at h <;> simp_all [methodOreEfficiencyErrs, stepErrs]

theorem errsOf_validate_MethodOreEfficiency (p : MethodOreEfficiencyPayload) :
    errsOf (validate_MethodOreEfficiency p) = methodOreEfficiencyErrs p := by
  cases hv : methodOreEfficiencyVals p with
  | some m =>
    simp [validate_MethodOreEfficiency, hv, errsOf,
      methodOreEfficiencyVals_some_errs p m hv]
  | none => simp [validate_MethodOreEfficiency, hv, errsOf]

/-! Equivalence of the executable mail-regex matcher with the shape the spec
describes. -/

theorem mailAfterAt_iff (l : List Char) :
    mailAfterAt l = true ↔ l ≠ [] ∧ '@' ∉ l := by
  simp only [mailAfterAt, Bool.and_eq_true, Bool.not_eq_true',
    List.isEmpty_eq_false_iff_exists_mem, List.all_eq_true, decide_eq_true_eq]
  constructor
  · rintro ⟨⟨x, hx⟩, hall⟩
    exact ⟨(by rintro rfl; cases hx), fun hmem => hall '@' hmem rfl⟩
  · rintro ⟨hne, hnin⟩
    refine ⟨?_, fun c hc => fun hce => hnin (hce ▸ hc)⟩
    cases l with
    | nil => exact absurd rfl hne
    | cons x xs => exact ⟨x, List.mem_cons_self x xs⟩

theorem mailContinue_iff (l : List Char) :
    mailContinue l = true ↔
      ∃ a b : List Char, l = a ++ '@' :: b ∧ b ≠ [] ∧ '@' ∉ a ∧ '@' ∉ b := by
  induction l with
  | nil =>
    simp only [mailContinue]
    constructor
    · intro h; cases h
    · rintro ⟨a, b, heq, -, -, -⟩
      exact absurd heq.symm (by simp)
  | cons c cs ih =>
    by_cases hc : c = '@'
    · subst hc
      have hred : mailContinue ('@' :: cs) = mailAfterAt cs := rfl
      rw [hred, mailAfterAt_iff]
      constructor
      · rintro ⟨hne, hnin⟩
        exact ⟨[], cs, by simp, hne, by simp, hnin⟩
      · rintro ⟨a, b, heq, hb, ha, hbn⟩
        cases a with
        | nil =>
          simp only [List.nil_append, List.cons.injEq] at heq
          exact heq.2 ▸ ⟨hb, hbn⟩
        | cons x xs =>
          simp only [List.cons_append, List.cons.injEq] at heq
          exact absurd (heq.1 ▸ List.mem_cons_self x xs) ha
    · simp only [mailContinue, if_neg hc]
      rw [ih]
      constructor
      · rintro ⟨a, b, heq, hb, ha, hbn⟩
        refine ⟨c :: a, b, by simp [heq], hb, ?_, hbn⟩
        intro hmem
        rcases List.mem_cons.mp hmem with h | h
        · exact hc h.symm
        · exact ha h
      · rintro ⟨a, b, heq, hb, ha, hbn⟩
        cases a with
        | nil =>
          simp only [List.nil_append, List.cons.injEq] at heq
          exact absurd heq.1 hc
        | cons x xs =>
          simp only [List.cons_append, List.cons.injEq] at heq
          refine ⟨xs, b, heq.2, hb, fun hm => ha (List.mem_cons_of_mem x hm), hbn⟩

theorem mailRegexOk_iff (s : List Char) : mailRegexOk s = true ↔ mailShape s := by
  cases s with
  | nil =>
    simp only [mailRegexOk, mailShape]
    constructor
    · intro h; cases h
    · rintro ⟨a, b, heq, -, -, -⟩
      exact absurd heq.symm (by simp)
  | cons c cs =>
    by_cases hc : c = '@'
    · subst hc
      have hred : mailRegexOk ('@' :: cs) = false := rfl
      rw [hred]
      simp only [mailShape]
      constructor
      · intro h; cases h
      · rintro ⟨a, b, heq, ha, hb, han, hbn⟩
        cases a with
        | nil => exact absurd rfl ha
        | cons x xs =>
          simp only [List.cons_append, List.cons.injEq] at heq
          exact absurd (heq.1 ▸ List.mem_cons_self x xs) han
    · simp only [mailRegexOk, if_neg hc, mailShape]
      rw [mailContinue_iff]
      constructor
      · rintro ⟨a, b, heq, hb, ha, hbn⟩
        refine ⟨c :: a, b, by simp [heq], by simp, hb, ?_, hbn⟩
        intro hmem
        rcases List.mem_cons.mp hmem with h | h
        · exact hc h.symm
        · exact ha h
      · rintro ⟨a, b, heq, ha, hb, han, hbn⟩
        cases a with
        | nil =>
          simp only [List.nil_append, List.cons.injEq] at heq
          exact absurd heq.1 hc
        | cons x xs =>
          simp only [List.cons_append, List.cons.injEq] at heq
          exact ⟨xs, b, heq.2, hb, fun hm => han (List.mem_cons_of_mem x hm), hbn⟩

theorem validate_UserUpdate_ok_elim {p : UserUpdatePayload} {m : UserUpdate}
    (h : validate_UserUpdate p = .ok m) : userUpdateVals p = some m := by
  unfold validate_UserUpdate at h
  cases hv : userUpdateVals p with
  | some m' =>
    rw [hv] at h
    cases h
    rfl
  | none =>
    rw [hv] at h
    cases h

theorem userUpdateVals_fieldsSet {p : UserUpdatePayload} {m : UserUpdate}
    (h : userUpdateVals p = some m) : m.fieldsSet = userUpdateFieldsSet p := by
  unfold userUpdateVals at h
  split at h
  · cases h
    rfl
  · cases h

theorem userUpdateVals_name {p : UserUpdatePayload} {m : UserUpdate}
    (h : userUpdateVals p = some m) : validateOptStr 50 p.name = .ok m.name := by
  unfold userUpdateVals at h
  split at h
  · rename_i n ml pw pc g a sc h1 h2 h3 h4 h5 h6 h7
    cases h
    exact h1
  · cases h

theorem validatePCCreate_none_ne_mismatch (f : Fld (List Char)) :
    validatePCCreate none f ≠ .error .mismatch := by
  cases f <;> simp [validatePCCreate] <;> split <;> simp

theorem validate_OreUpdate_ok_elim {p : OreUpdatePayload} {m : OreUpdate}
    (h : validate_OreUpdate p = .ok m) : oreUpdateVals p = some m := by
  unfold validate_OreUpdate at h
  cases hv : oreUpdateVals p with
  | some m' =>
    rw [hv] at h
    cases h
    rfl
  | none =>
    rw [hv] at h
    cases h

theorem oreUpdateVals_fieldsSet {p : OreUpdatePayload} {m : OreUpdate}
    (h : oreUpdateVals p = some m) : m.fieldsSet = oreUpdateFieldsSet p := by
  unfold oreUpdateVals at h
  split at h
  · cases h
    rfl
  · cases h

theorem oreUpdateVals_name {p : OreUpdatePayload} {m : OreUpdate}
    (h : oreUpdateVals p = some m) : validateOptStr 50 p.name = .ok m.name := by
  unfold oreUpdateVals at h
  split at h
  · rename_i n h1
    cases h
    exact h1
  · cases h

theorem validate_StationUpdate_ok_elim {p : StationUpdatePayload} {m : StationUpdate}
    (h : validate_StationUpdate p = .ok m) : stationUpdateVals p = some m := by
  unfold validate_StationUpdate at h
  cases hv : stationUpdateVals p with
  | some m' =>
    rw [hv] at h
    cases h
    rfl
  | none =>
    rw [hv] at h
    cases h

theorem stationUpdateVals_fieldsSet {p : StationUpdatePayload} {m : StationUpdate}
    (h : stationUpdateVals p = some m) : m.fieldsSet = stationUpdateFieldsSet p := by
  unfold stationUpdateVals at h
  split at h
  · cases h
    rfl
  · cases h

theorem stationUpdateVals_name {p : StationUpdatePayload} {m : StationUpdate}
    (h : stationUpdateVals p = some m) : validateOptStr 50 p.name = .ok m.name := by
  unfold stationUpdateVals at h
  split at h
  · rename_i n e h1 h2
    cases h
    exact h1
  · cases h

theorem validate_MethodUpdate_ok_elim {p : MethodUpdatePayload} {m : MethodUpdate}
    (h : validate_MethodUpdate p = .ok m) : methodUpdateVals p = some m := by
  unfold validate_MethodUpdate at h
  cases hv : methodUpdateVals p with
  | some m' =>
    rw [hv] at h
    cases h
    rfl
  | none =>
    rw [hv] at h
    cases h

theorem methodUpdateVals_fieldsSet {p : MethodUpdatePayload} {m : MethodUpdate}
    (h : methodUpdateVals p = some m) : m.fieldsSet = methodUpdateFieldsSet p := by
  unfold methodUpdateVals at h
  split at h
  · cases h
    rfl
  · cases h

theorem methodUpdateVals_name {p : MethodUpdatePayload} {m : MethodUpdate}
    (h : methodUpdateVals p = some m) : validateOptStr 50 p.name = .ok m.name := by
  unfold methodUpdateVals at h
  split at h
  · rename_i n e h1 h2
    cases h
    exact h1
  · cases h

theorem validate_MiningSessionUpdate_ok_elim {p : MiningSessionUpdatePayload}
    {m : MiningSessionUpdate} (h : validate_MiningSessionUpdate p = .ok m) :
    miningSessionUpdateVals p = some m := by
  unfold validate_MiningSessionUpdate at h
  cases hv : miningSessionUpdateVals p with
  | some m' =>
    rw [hv] at h
    cases h
    rfl
  | none =>
    rw [hv] at h
    cases h

theorem miningSessionUpdateVals_fieldsSet {p : MiningSessionUpdatePayload}
    {m : MiningSessionUpdate} (h : miningSessionUpdateVals p = some m) :
    m.fieldsSet = miningSessionUpdateFieldsSet p := by
  unfold miningSessionUpdateVals at h
  split at h
  · cases h
    rfl
  · cases h

theorem miningSessionUpdateVals_name {p : MiningSessionUpdatePayload}
    {m : MiningSessionUpdate} (h : miningSessionUpdateVals p = some m) :
    validateOptStr 50 p.name = .ok m.name := by
  unfold miningSessionUpdateVals at h
  split at h
  · rename_i n ar ys yu ui h1 h2 h3 h4 h5
    cases h
    exact h1
  · cases h

theorem validate_FriendshipUpdate_ok_elim {p : FriendshipUpdatePayload}
    {m : FriendshipUpdate} (h : validate_FriendshipUpdate p = .ok m) :
    friendshipUpdateVals p = some m := by
  unfold validate_FriendshipUpdate at h
  cases hv : friendshipUpdateVals p with
  | some m' =>
    rw [hv] at h
    cases h
    rfl
  | none =>
    rw [hv] at h
    cases h

theorem friendshipUpdateVals_fieldsSet {p : FriendshipUpdatePayload}
    {m : FriendshipUpdate} (h : friendshipUpdateVals p = some m) :
    m.fieldsSet = friendshipUpdateFieldsSet p := by
  unfold friendshipUpdateVals at h
  split at h
  · cases h
    rfl
  · cases h

theorem friendshipUpdateVals_name {p : FriendshipUpdatePayload}
    {m : FriendshipUpdate} (h : friendshipUpdateVals p = some m) :
    validateOptStr 50 p.name = .ok m.name := by
  unfold friendshipUpdateVals at h
  split at h
  · rename_i ui un fi fn c n h1 h2 h3 h4 h5 h6
    cases h
    exact h6
  · cases h

/-! Theorems settling the claims. -/

/-- C4: for every `StationOreEfficiency` or `MethodOreEfficiency` source
record whose related `ore` object is absent (`None`), the `from_orm`
projection fails (the `obj.ore.name` attribute access raises) and the
failure is propagated to the caller; no structure with a defaulted
`ore_name` is produced. -/
theorem claim4_from_orm_null_ore_propagates :
    (∀ obj : StationOreEffOrm, obj.ore = none →
      StationOreEfficiency.from_orm obj = .error .attributeError) ∧
    (∀ obj : MethodOreEffOrm, obj.ore = none →
      MethodOreEfficiency.from_orm obj = .error .attributeError) := by
  constructor
  · intro obj h
    simp [StationOreEfficiency.from_orm, h]
  · intro obj h
    simp [MethodOreEfficiency.from_orm, h]

/-- Witness for C4 at concrete records with a null `ore` relation. -/
theorem claim4_from_orm_null_ore_propagates_witness :
    StationOreEfficiency.from_orm ⟨1, 1, none⟩ = .error .attributeError ∧
    MethodOreEfficiency.from_orm ⟨1, 1, 1, none⟩ = .error .attributeError :=
  ⟨claim4_from_orm_null_ore_propagates.1 ⟨1, 1, none⟩ rfl,
   claim4_from_orm_null_ore_propagates.2 ⟨1, 1, 1, none⟩ rfl⟩

/-- C5: for `MethodOreEfficiency`, a supplied `efficiency` value validates
exactly when `0 < efficiency ≤ 1` (so `0` fails, `1` succeeds, `1.5` fails),
and a supplied `duration` value validates exactly when `duration > 0`. -/
theorem claim5_method_ore_efficiency_bounds :
    (∀ q : ℚ, validateEfficiency (.val q) = .ok q ↔ 0 < q ∧ q ≤ 1) ∧
    (∀ q : ℚ, validateDuration (.val q) = .ok q ↔ 0 < q) ∧
    (Err.mk "efficiency" .notGt ∈
      errsOf (validate_MethodOreEfficiency ⟨.val 0, .val 1, .val 1, .absent⟩)) ∧
    (validate_MethodOreEfficiency ⟨.val 1, .val 1, .val 1, .absent⟩ =
      .ok ⟨1, 1, 1, none⟩) ∧
    (Err.mk "efficiency" .notLe ∈
      errsOf (validate_MethodOreEfficiency ⟨.val (3 / 2), .val 1, .val 1, .absent⟩)) := by
  refine ⟨?_, ?_, ?_, ?_, ?_⟩
  · intro q
    simp only [validateEfficiency]
    split
    · split <;> simp_all
    · simp_all
  · intro q
    simp only [validateDuration]
    split <;> simp_all
  · rw [errsOf_validate_MethodOreEfficiency]
    norm_num [methodOreEfficiencyErrs, validateEfficiency, validateDuration,
      validateReqAny, validateOptAny, stepErrs]
  · norm_num [validate_MethodOreEfficiency, methodOreEfficiencyVals,
      validateEfficiency, validateDuration, validateReqAny, validateOptAny]
  · rw [errsOf_validate_MethodOreEfficiency]
    norm_num [methodOreEfficiencyErrs, validateEfficiency, validateDuration,
      validateReqAny, validateOptAny, stepErrs]

/-- C7: the `Friendship.from_orm` projection derives `user_name` and
`friend_name` from the `.name` attribute of the resolved `user`/`friend`
relation objects — independently of the stored denormalized name columns —
and copies `user_id`, `friend_id`, `created` and `confirmed` directly; in
particular a record with `.user.name == "Alice"`, `.friend.name == "Bob"`
and stale stored names projects to `"Alice"`/`"Bob"`. -/
theorem claim7_friendship_projection_reads_relation_names :
    (∀ (uid fid : Int) (u fr : OrmRef) (un fn : List Char) (c : Int)
        (cf : Option Int),
      Friendship.from_orm ⟨uid, u, fid, fr, un, fn, c, cf⟩ =
        ⟨uid, u.name, fid, fr.name, c, cf⟩) ∧
    (Friendship.from_orm
        ⟨1, ⟨['A', 'l', 'i', 'c', 'e']⟩, 2, ⟨['B', 'o', 'b']⟩,
          ['S', 't', 'a', 'l', 'e'], ['S', 't', 'a', 'l', 'e'], 0, none⟩ =
      ⟨1, ['A', 'l', 'i', 'c', 'e'], 2, ['B', 'o', 'b'], 0, none⟩) :=
  ⟨fun uid fid u fr un fn c cf => rfl, rfl⟩

/-- C8: the `ListResponse` envelope accepts every combination of an integer
`total_count` and an item list, preserving both unchanged; it performs no
consistency check between `total_count` and the number of items (e.g.
`total_count = 57` with 20 items is accepted). -/
theorem claim8_list_envelope_no_consistency_check :
    (∀ (ItemT : Type) (tc : Int) (xs : List ItemT),
      validate_ListResponse ⟨.val tc, .val xs⟩ = .ok ⟨tc, xs⟩) ∧
    validate_ListResponse ⟨.val 57, .val (List.replicate 20 (0 : Int))⟩ =
      .ok ⟨57, List.replicate 20 0⟩ :=
  ⟨fun ItemT tc xs => rfl, rfl⟩

/-- C9: in `UserCreate` the fields `password` and `password_confirm` are
declared without `Optional`, hence required: every payload omitting either
one fails validation with a missing-field error attached to that field. -/
theorem claim9_usercreate_password_fields_required :
    (∀ p : UserCreatePayload, p.password = .absent →
      Err.mk "password" .missing ∈ errsOf (validate_UserCreate p)) ∧
    (∀ p : UserCreatePayload, p.password_confirm = .absent →
      Err.mk "password_confirm" .missing ∈ errsOf (validate_UserCreate p)) := by
  constructor
  · intro p h
    rw [errsOf_validate_UserCreate]
    simp [userCreateErrs, h, validateReqStr, stepErrs]
  · intro p h
    rw [errsOf_validate_UserCreate]
    simp [userCreateErrs, h, validatePCCreate, stepErrs]

/-- Witness for C9 at the empty payload. -/
theorem claim9_usercreate_password_fields_required_witness :
    Err.mk "password" .missing ∈
      errsOf (validate_UserCreate
        ⟨.absent, .absent, .absent, .absent, .absent, .absent, .absent⟩) ∧
    Err.mk "password_confirm" .missing ∈
      errsOf (validate_UserCreate
        ⟨.absent, .absent, .absent, .absent, .absent, .absent, .absent⟩) :=
  ⟨claim9_usercreate_password_fields_required.1 _ rfl,
   claim9_usercreate_password_fields_required.2 _ rfl⟩

/-- C10: in `UserCreate` and `UserUpdate`, when the supplied `password` value
fails its own length constraint (over 250 characters), it is left out of the
`values` dict, so the `passwords_match` comparison is skipped: even for a
differing, individually valid `password_confirm` value, validation produces
the `password` field error and attaches no error at all to
`password_confirm`. -/
theorem claim10_invalid_password_skips_match :
    (∀ (p : UserCreatePayload) (s t : List Char),
      p.password = .val s → 250 < s.length →
      p.password_confirm = .val t → t.length ≤ 250 → s ≠ t →
      Err.mk "password" .tooLong ∈ errsOf (validate_UserCreate p) ∧
      ∀ e ∈ errsOf (validate_UserCreate p), e.loc ≠ "password_confirm") ∧
    (∀ (p : UserUpdatePayload) (s t : List Char),
      p.password = .val s → 250 < s.length →
      p.password_confirm = .val t → t.length ≤ 250 → s ≠ t →
      Err.mk "password" .tooLong ∈ errsOf (validate_UserUpdate p) ∧
      ∀ e ∈ errsOf (validate_UserUpdate p), e.loc ≠ "password_confirm") := by
  constructor
  · intro p s t hp hlen hpc hlt hne
    have hbad : ¬ (s.length ≤ 250) := not_le.mpr hlen
    have hpw : validateReqStr 250 p.password = .error .tooLong := by
      rw [hp]; simp [validateReqStr, hbad]
    have hpcv : validatePCCreate (stepVal (validateReqStr 250 p.password))
        p.password_confirm = .ok t := by
      rw [hpw, hpc]; simp [validatePCCreate, stepVal, hlt]
    rw [errsOf_validate_UserCreate]
    refine ⟨?_, ?_⟩
    · simp [userCreateErrs, hpw, stepErrs]
    · intro e he
      simp only [userCreateErrs, List.mem_append] at he
      rcases he with ((((((h | h) | h) | h) | h) | h) | h) <;>
        first
          | (rw [hpcv] at h; simp [stepErrs] at h)
          | (rw [(mem_stepErrs h).1]; decide)
  · intro p s t hp hlen hpc hlt hne
    have hbad : ¬ (s.length ≤ 250) := not_le.mpr hlen
    have hpw : validateOptStr 250 p.password = .error .tooLong := by
      rw [hp]; simp [validateOptStr, hbad]
    have hpcv : validatePCUpdate (stepVal (validateOptStr 250 p.password))
        p.password_confirm = .ok (some t) := by
      rw [hpw, hpc]; simp [validatePCUpdate, stepVal, hlt]
    rw [errsOf_validate_UserUpdate]
    refine ⟨?_, ?_⟩
    · simp [userUpdateErrs, hpw, stepErrs]
    · intro e he
      simp only [userUpdateErrs, List.mem_append] at he
      rcases he with ((((((h | h) | h) | h) | h) | h) | h) <;>
        first
          | (rw [hpcv] at h; simp [stepErrs] at h)
          | (rw [(mem_stepErrs h).1]; decide)

/-- Witness for C10: a 251-character password with a short differing
confirmation, on both schemas. -/
theorem claim10_invalid_password_skips_match_witness :
    (Err.mk "password" .tooLong ∈
      errsOf (validate_UserCreate
        ⟨.absent, .absent, .val (List.replicate 251 'a'), .val ['b'],
          .absent, .absent, .absent⟩) ∧
      ∀ e ∈ errsOf (validate_UserCreate
        ⟨.absent, .absent, .val (List.replicate 251 'a'), .val ['b'],
          .absent, .absent, .absent⟩), e.loc ≠ "password_confirm") ∧
    (Err.mk "password" .tooLong ∈
      errsOf (validate_UserUpdate
        ⟨.absent, .absent, .val (List.replicate 251 'a'), .val ['b'],
          .absent, .absent, .absent⟩) ∧
      ∀ e ∈ errsOf (validate_UserUpdate
        ⟨.absent, .absent, .val (List.replicate 251 'a'), .val ['b'],
          .absent, .absent, .absent⟩), e.loc ≠ "password_confirm") :=
  ⟨claim10_invalid_password_skips_match.1 _ _ _ rfl (by decide) rfl (by decide)
    (by decide),
   claim10_invalid_password_skips_match.2 _ _ _ rfl (by decide) rfl (by decide)
    (by decide)⟩

/-- C1 counterexample: a `UserUpdate` payload supplying only
`password_confirm` (with `password` omitted) does fail on the
`passwords_match` rule — pydantic places the omitted `password`'s default
`None` into `values`, and the supplied confirmation is compared against it —
refuting the claim that supplying only one of the two fields never fails on
this rule. -/
theorem claim1_counterexample :
    validate_UserUpdate
        ⟨.absent, .absent, .absent, .val ['a'], .absent, .absent, .absent⟩ =
      .error [⟨"password_confirm", .mismatch⟩] := by
  decide

/-- C1 amended: for `UserCreate` and `UserUpdate`, supplying both `password`
and `password_confirm` with individually valid but different values fails
with a mismatch error on `password_confirm`; supplying only `password`
(confirmation omitted) never triggers the rule, and on `UserCreate`
supplying only `password_confirm` does not trigger it either (the missing
`password` is not in `values`); but on `UserUpdate` supplying only a
non-null `password_confirm` does fail on the rule, because the omitted
`password` defaults to `None` inside `values` and the comparison happens. -/
theorem claim1_amended_passwords_match :
    (∀ (p : UserCreatePayload) (s t : List Char),
      p.password = .val s → s.length ≤ 250 →
      p.password_confirm = .val t → t.length ≤ 250 → s ≠ t →
      Err.mk "password_confirm" .mismatch ∈ errsOf (validate_UserCreate p)) ∧
    (∀ (p : UserUpdatePayload) (s t : List Char),
      p.password = .val s → s.length ≤ 250 →
      p.password_confirm = .val t → t.length ≤ 250 → s ≠ t →
      Err.mk "password_confirm" .mismatch ∈ errsOf (validate_UserUpdate p)) ∧
    (∀ p : UserCreatePayload, p.password_confirm = .absent →
      Err.mk "password_confirm" .mismatch ∉ errsOf (validate_UserCreate p)) ∧
    (∀ p : UserCreatePayload, p.password = .absent →
      Err.mk "password_confirm" .mismatch ∉ errsOf (validate_UserCreate p)) ∧
    (∀ p : UserUpdatePayload, p.password_confirm = .absent →
      Err.mk "password_confirm" .mismatch ∉ errsOf (validate_UserUpdate p)) ∧
    (∀ (p : UserUpdatePayload) (t : List Char),
      p.password = .absent → p.password_confirm = .val t → t.length ≤ 250 →
      Err.mk "password_confirm" .mismatch ∈ errsOf (validate_UserUpdate p)) := by
  refine ⟨?_, ?_, ?_, ?_, ?_, ?_⟩
  · intro p s t hp hs hpc ht hne
    have hpw : validateReqStr 250 p.password = .ok s := by
      rw [hp]; simp [validateReqStr, hs]
    have hpcv : validatePCCreate (stepVal (validateReqStr 250 p.password))
        p.password_confirm = .error .mismatch := by
      rw [hpw, hpc]
      simp only [validatePCCreate, stepVal]
      rw [if_pos ht, if_neg (fun h : t = s => hne h.symm)]
    rw [errsOf_validate_UserCreate]
    simp [userCreateErrs, hpcv, stepErrs]
  · intro p s t hp hs hpc ht hne
    have hpw : validateOptStr 250 p.password = .ok (some s) := by
      rw [hp]; simp [validateOptStr, hs]
    have hpcv : validatePCUpdate (stepVal (validateOptStr 250 p.password))
        p.password_confirm = .error .mismatch := by
      rw [hpw, hpc]
      simp only [validatePCUpdate, stepVal]
      rw [if_pos ht, if_neg (fun h : some s = some t => hne (Option.some_inj.mp h))]
    rw [errsOf_validate_UserUpdate]
    simp [userUpdateErrs, hpcv, stepErrs]
  · intro p hpc hmem
    rw [errsOf_validate_UserCreate] at hmem
    simp only [userCreateErrs, List.mem_append] at hmem
    rcases hmem with ((((((h | h) | h) | h) | h) | h) | h) <;>
      first
        | (rw [hpc] at h
           have hk := (mem_stepErrs h).2
           rw [show validatePCCreate (stepVal (validateReqStr 250 p.password))
             Fld.absent = Except.error ErrKind.missing from rfl] at hk
           cases hk)
        | exact absurd (mem_stepErrs h).1 (by decide)
  · intro p hp hmem
    rw [errsOf_validate_UserCreate] at hmem
    simp only [userCreateErrs, List.mem_append] at hmem
    have hpw : validateReqStr 250 p.password = .error .missing := by
      rw [hp]; rfl
    rcases hmem with ((((((h | h) | h) | h) | h) | h) | h) <;>
      first
        | (rw [hpw] at h
           have hk := (mem_stepErrs h).2
           exact validatePCCreate_none_ne_mismatch _ hk)
        | exact absurd (mem_stepErrs h).1 (by decide)
  · intro p hpc hmem
    rw [errsOf_validate_UserUpdate] at hmem
    simp only [userUpdateErrs, List.mem_append] at hmem
    rcases hmem with ((((((h | h) | h) | h) | h) | h) | h) <;>
      first
        | (rw [hpc] at h
           have hk := (mem_stepErrs h).2
           rw [show validatePCUpdate (stepVal (validateOptStr 250 p.password))
             Fld.absent = Except.ok none from rfl] at hk
           cases hk)
        | exact absurd (mem_stepErrs h).1 (by decide)
  · intro p t hp hpc ht
    have hpw : validateOptStr 250 p.password = .ok none := by
      rw [hp]; rfl
    have hpcv : validatePCUpdate (stepVal (validateOptStr 250 p.password))
        p.password_confirm = .error .mismatch := by
      rw [hpw, hpc]
      simp only [validatePCUpdate, stepVal]
      rw [if_pos ht, if_neg (fun h : (none : Option (List Char)) = some t => by cases h)]
    rw [errsOf_validate_UserUpdate]
    simp [userUpdateErrs, hpcv, stepErrs]

/-- Witness for C1 (amended) at concrete payloads: differing valid passwords
on `UserCreate`, and a confirmation-only `UserUpdate` payload. -/
theorem claim1_amended_passwords_match_witness :
    Err.mk "password_confirm" .mismatch ∈
      errsOf (validate_UserCreate
        ⟨.absent, .absent, .val ['x'], .val ['y'], .absent, .absent, .absent⟩) ∧
    Err.mk "password_confirm" .mismatch ∈
      errsOf (validate_UserUpdate
        ⟨.absent, .absent, .absent, .val ['a'], .absent, .absent, .absent⟩) :=
  ⟨claim1_amended_passwords_match.1 _ _ _ rfl (by decide) rfl (by decide) (by decide),
   claim1_amended_passwords_match.2.2.2.2.2 _ _ rfl rfl (by decide)⟩

/-- C2 counterexample: `FriendshipUpdate` declares `user_id: int` and
`friend_id: int` without `Optional`, so the payload omitting every field
fails validation with missing-field errors — refuting the claim that in
every Update schema every declared field is optional. -/
theorem claim2_counterexample :
    validate_FriendshipUpdate ⟨.absent, .absent, .absent, .absent, .absent, .absent⟩ =
      .error [⟨"user_id", .missing⟩, ⟨"friend_id", .missing⟩] := by
  decide

/-- C2 amended: in `UserUpdate`, `OreUpdate`, `StationUpdate`, `MethodUpdate`
and `MiningSessionUpdate` every declared field is optional — no payload ever
produces a missing-field error — but in `FriendshipUpdate` the fields
`user_id` and `friend_id` are required: a payload supplying only those two
validates, while omitting either of them yields a missing-field error on
it. -/
theorem claim2_amended_update_fields_optional :
    (∀ (p : UserUpdatePayload) (e : Err),
      e ∈ errsOf (validate_UserUpdate p) → e.kind ≠ .missing) ∧
    (∀ (p : OreUpdatePayload) (e : Err),
      e ∈ errsOf (validate_OreUpdate p) → e.kind ≠ .missing) ∧
    (∀ (p : StationUpdatePayload) (e : Err),
      e ∈ errsOf (validate_StationUpdate p) → e.kind ≠ .missing) ∧
    (∀ (p : MethodUpdatePayload) (e : Err),
      e ∈ errsOf (validate_MethodUpdate p) → e.kind ≠ .missing) ∧
    (∀ (p : MiningSessionUpdatePayload) (e : Err),
      e ∈ errsOf (validate_MiningSessionUpdate p) → e.kind ≠ .missing) ∧
    (validate_FriendshipUpdate ⟨.val 1, .absent, .val 2, .absent, .absent, .absent⟩ =
      .ok ⟨1, none, 2, none, none, none, ["user_id", "friend_id"]⟩) ∧
    (∀ p : FriendshipUpdatePayload, p.user_id = .absent →
      Err.mk "user_id" .missing ∈ errsOf (validate_FriendshipUpdate p)) ∧
    (∀ p : FriendshipUpdatePayload, p.friend_id = .absent →
      Err.mk "friend_id" .missing ∈ errsOf (validate_FriendshipUpdate p)) := by
  refine ⟨?_, ?_, ?_, ?_, ?_, by decide, ?_, ?_⟩
  · intro p e hmem hmiss
    rw [errsOf_validate_UserUpdate] at hmem
    simp only [userUpdateErrs, List.mem_append] at hmem
    rcases hmem with ((((((h | h) | h) | h) | h) | h) | h) <;>
      (have h2 := (mem_stepErrs h).2; rw [hmiss] at h2) <;>
      first
        | exact validateOptStr_ne_missing _ _ h2
        | exact validateMailOpt_ne_missing _ h2
        | exact validatePCUpdate_ne_missing _ _ h2
        | exact validateOptAny_ne_missing _ h2
        | exact validateScopes_ne_missing _ h2
  · intro p e hmem hmiss
    rw [errsOf_validate_OreUpdate] at hmem
    simp only [oreUpdateErrs] at hmem
    have h2 := (mem_stepErrs hmem).2
    rw [hmiss] at h2
    exact validateOptStr_ne_missing _ _ h2
  · intro p e hmem hmiss
    rw [errsOf_validate_StationUpdate] at hmem
    simp only [stationUpdateErrs, List.mem_append] at hmem
    rcases hmem with h | h <;>
      (have h2 := (mem_stepErrs h).2; rw [hmiss] at h2) <;>
      first
        | exact validateOptStr_ne_missing _ _ h2
        | exact validateOptStationEffList_ne_missing _ h2
  · intro p e hmem hmiss
    rw [errsOf_validate_MethodUpdate] at hmem
    simp only [methodUpdateErrs, List.mem_append] at hmem
    rcases hmem with h | h <;>
      (have h2 := (mem_stepErrs h).2; rw [hmiss] at h2) <;>
      first
        | exact validateOptStr_ne_missing _ _ h2
        | exact validateOptMethodEffList_ne_missing _ h2
  · intro p e hmem hmiss
    rw [errsOf_validate_MiningSessionUpdate] at hmem
    simp only [miningSessionUpdateErrs, List.mem_append] at hmem
    rcases hmem with ((((h | h) | h) | h) | h) <;>
      (have h2 := (mem_stepErrs h).2; rw [hmiss] at h2) <;>
      first
        | exact validateOptStr_ne_missing _ _ h2
        | exact validateOptAny_ne_missing _ h2
  · intro p h
    rw [errsOf_validate_FriendshipUpdate]
    simp [friendshipUpdateErrs, h, validateReqAny, stepErrs]
  · intro p h
    rw [errsOf_validate_FriendshipUpdate]
    simp [friendshipUpdateErrs, h, validateReqAny, stepErrs]

/-- Witness for C2 (amended): the optional-field parts applied to a payload
carrying a too-long name, and the required-field parts applied to payloads
omitting `user_id` / `friend_id`. -/
theorem claim2_amended_update_fields_optional_witness :
    (Err.mk "name" ErrKind.tooLong).kind ≠ ErrKind.missing ∧
    Err.mk "user_id" .missing ∈
      errsOf (validate_FriendshipUpdate
        ⟨.absent, .absent, .val 2, .absent, .absent, .absent⟩) ∧
    Err.mk "friend_id" .missing ∈
      errsOf (validate_FriendshipUpdate
        ⟨.val 1, .absent, .absent, .absent, .absent, .absent⟩) :=
  ⟨claim2_amended_update_fields_optional.1
      ⟨.val (List.replicate 51 'a'), .absent, .absent, .absent, .absent, .absent, .absent⟩
      (Err.mk "name" ErrKind.tooLong) (by decide),
   claim2_amended_update_fields_optional.2.2.2.2.2.2.1 _ rfl,
   claim2_amended_update_fields_optional.2.2.2.2.2.2.2 _ rfl⟩

/-- C3: for every Update schema (`UserUpdate`, `OreUpdate`, `StationUpdate`,
`MethodUpdate`, `MiningSessionUpdate`, `FriendshipUpdate`), the parsed
model's `__fields_set__` is exactly the set of fields present in the
payload, so an omitted field (value `none`, name not in the set) stays
distinguishable from an explicit null (value `none`, name in the set) —
shown in general through the fields-set equation and concretely on the
`name` field of each schema — and a full valid payload round-trips with
every supplied value reproduced unchanged. -/
theorem claim3_update_absent_null_roundtrip :
    ((∀ (p : UserUpdatePayload) (m : UserUpdate), validate_UserUpdate p = .ok m →
        m.fieldsSet = userUpdateFieldsSet p) ∧
      (∀ (p : UserUpdatePayload) (m : UserUpdate), validate_UserUpdate p = .ok m →
        p.name = .absent → m.name = none ∧ "name" ∉ m.fieldsSet) ∧
      (∀ (p : UserUpdatePayload) (m : UserUpdate), validate_UserUpdate p = .ok m →
        p.name = .null → m.name = none ∧ "name" ∈ m.fieldsSet) ∧
      (∀ (n ml pw : List Char) (g a : Bool) (sc : List (List Char)),
        n.length ≤ 50 → ml.length ≤ 250 → mailRegexOk ml = true → pw.length ≤ 250 →
        sc.all (fun s => s.length ≤ 50) = true →
        validate_UserUpdate ⟨.val n, .val ml, .val pw, .val pw, .val g, .val a, .val sc⟩ =
          .ok ⟨some n, some ml, some pw, some pw, some g, some a, some sc,
            ["name", "mail", "password", "password_confirm", "is_google",
              "is_active", "scopes"]⟩)) ∧
    ((∀ (p : OreUpdatePayload) (m : OreUpdate), validate_OreUpdate p = .ok m →
        m.fieldsSet = oreUpdateFieldsSet p) ∧
      (∀ (p : OreUpdatePayload) (m : OreUpdate), validate_OreUpdate p = .ok m →
        p.name = .absent → m.name = none ∧ "name" ∉ m.fieldsSet) ∧
      (∀ (p : OreUpdatePayload) (m : OreUpdate), validate_OreUpdate p = .ok m →
        p.name = .null → m.name = none ∧ "name" ∈ m.fieldsSet) ∧
      (∀ n : List Char, n.length ≤ 50 →
        validate_OreUpdate ⟨.val n⟩ = .ok ⟨some n, ["name"]⟩)) ∧
    ((∀ (p : StationUpdatePayload) (m : StationUpdate), validate_StationUpdate p = .ok m →
        m.fieldsSet = stationUpdateFieldsSet p) ∧
      (∀ (p : StationUpdatePayload) (m : StationUpdate), validate_StationUpdate p = .ok m →
        p.name = .absent → m.name = none ∧ "name" ∉ m.fieldsSet) ∧
      (∀ (p : StationUpdatePayload) (m : StationUpdate), validate_StationUpdate p = .ok m →
        p.name = .null → m.name = none ∧ "name" ∈ m.fieldsSet) ∧
      (∀ (n : List Char) (effs : List StationEffElem), n.length ≤ 50 →
        validate_StationUpdate ⟨.val n, .val effs⟩ =
          .ok ⟨some n, some effs, ["name", "efficiencies"]⟩)) ∧
    ((∀ (p : MethodUpdatePayload) (m : MethodUpdate), validate_MethodUpdate p = .ok m →
        m.fieldsSet = methodUpdateFieldsSet p) ∧
      (∀ (p : MethodUpdatePayload) (m : MethodUpdate), validate_MethodUpdate p = .ok m →
        p.name = .absent → m.name = none ∧ "name" ∉ m.fieldsSet) ∧
      (∀ (p : MethodUpdatePayload) (m : MethodUpdate), validate_MethodUpdate p = .ok m →
        p.name = .null → m.name = none ∧ "name" ∈ m.fieldsSet) ∧
      (∀ (n : List Char) (effs : List MethodEffElem), n.length ≤ 50 →
        effs.all methodEffElemOk = true →
        validate_MethodUpdate ⟨.val n, .val effs⟩ =
          .ok ⟨some n, some effs, ["name", "efficiencies"]⟩)) ∧
    ((∀ (p : MiningSessionUpdatePayload) (m : MiningSessionUpdate),
        validate_MiningSessionUpdate p = .ok m →
        m.fieldsSet = miningSessionUpdateFieldsSet p) ∧
      (∀ (p : MiningSessionUpdatePayload) (m : MiningSessionUpdate),
        validate_MiningSessionUpdate p = .ok m →
        p.name = .absent → m.name = none ∧ "name" ∉ m.fieldsSet) ∧
      (∀ (p : MiningSessionUpdatePayload) (m : MiningSessionUpdate),
        validate_MiningSessionUpdate p = .ok m →
        p.name = .null → m.name = none ∧ "name" ∈ m.fieldsSet) ∧
      (∀ (n : List Char) (ar : Int) (ys yu : ℚ) (ui : List Related),
        n.length ≤ 50 →
        validate_MiningSessionUpdate ⟨.val n, .val ar, .val ys, .val yu, .val ui⟩ =
          .ok ⟨some n, some ar, some ys, some yu, some ui,
            ["name", "archived", "yield_scu", "yield_uec", "users_invited"]⟩)) ∧
    ((∀ (p : FriendshipUpdatePayload) (m : FriendshipUpdate),
        validate_FriendshipUpdate p = .ok m →
        m.fieldsSet = friendshipUpdateFieldsSet p) ∧
      (∀ (p : FriendshipUpdatePayload) (m : FriendshipUpdate),
        validate_FriendshipUpdate p = .ok m →
        p.name = .absent → m.name = none ∧ "name" ∉ m.fieldsSet) ∧
      (∀ (p : FriendshipUpdatePayload) (m : FriendshipUpdate),
        validate_FriendshipUpdate p = .ok m →
        p.name = .null → m.name = none ∧ "name" ∈ m.fieldsSet) ∧
      (∀ (ui fi : Int) (un fn nm : List Char) (c : Int),
        un.length ≤ 50 → fn.length ≤ 50 → nm.length ≤ 50 →
        validate_FriendshipUpdate
            ⟨.val ui, .val un, .val fi, .val fn, .val c, .val nm⟩ =
          .ok ⟨ui, some un, fi, some fn, some c, some nm,
            ["user_id", "user_name", "friend_id", "friend_name", "confirmed",
              "name"]⟩)) := by
  refine ⟨⟨?_, ?_, ?_, ?_⟩, ⟨?_, ?_, ?_, ?_⟩, ⟨?_, ?_, ?_, ?_⟩, ⟨?_, ?_, ?_, ?_⟩,
    ⟨?_, ?_, ?_, ?_⟩, ⟨?_, ?_, ?_, ?_⟩⟩
  · intro p m h
    exact userUpdateVals_fieldsSet (validate_UserUpdate_ok_elim h)
  · intro p m h habs
    have hv := validate_UserUpdate_ok_elim h
    have hn := userUpdateVals_name hv
    rw [habs] at hn
    simp only [validateOptStr, Except.ok.injEq] at hn
    refine ⟨hn.symm, ?_⟩
    rw [userUpdateVals_fieldsSet hv]
    simp only [userUpdateFieldsSet, habs, Fld.isSet]
    simp only [List.mem_append, Bool.false_eq_true, if_false]
    split_ifs <;> decide
  · intro p m h hnull
    have hv := validate_UserUpdate_ok_elim h
    have hn := userUpdateVals_name hv
    rw [hnull] at hn
    simp only [validateOptStr, Except.ok.injEq] at hn
    refine ⟨hn.symm, ?_⟩
    rw [userUpdateVals_fieldsSet hv]
    simp [userUpdateFieldsSet, hnull, Fld.isSet]
  · intro n ml pw g a sc hn hml hre hpw hsc
    simp [validate_UserUpdate, userUpdateVals, validateOptStr, validateMailOpt,
      validatePCUpdate, validateOptAny, validateScopes, stepVal,
      userUpdateFieldsSet, Fld.isSet, hn, hml, hre, hpw, hsc]
  · intro p m h
    exact oreUpdateVals_fieldsSet (validate_OreUpdate_ok_elim h)
  · intro p m h habs
    have hv := validate_OreUpdate_ok_elim h
    have hn := oreUpdateVals_name hv
    rw [habs] at hn
    simp only [validateOptStr, Except.ok.injEq] at hn
    refine ⟨hn.symm, ?_⟩
    rw [oreUpdateVals_fieldsSet hv]
    simp [oreUpdateFieldsSet, habs, Fld.isSet]
  · intro p m h hnull
    have hv := validate_OreUpdate_ok_elim h
    have hn := oreUpdateVals_name hv
    rw [hnull] at hn
    simp only [validateOptStr, Except.ok.injEq] at hn
    refine ⟨hn.symm, ?_⟩
    rw [oreUpdateVals_fieldsSet hv]
    simp [oreUpdateFieldsSet, hnull, Fld.isSet]
  · intro n hn
    simp [validate_OreUpdate, oreUpdateVals, validateOptStr,
      oreUpdateFieldsSet, Fld.isSet, hn]
  · intro p m h
    exact stationUpdateVals_fieldsSet (validate_StationUpdate_ok_elim h)
  · intro p m h habs
    have hv := validate_StationUpdate_ok_elim h
    have hn := stationUpdateVals_name hv
    rw [habs] at hn
    simp only [validateOptStr, Except.ok.injEq] at hn
    refine ⟨hn.symm, ?_⟩
    rw [stationUpdateVals_fieldsSet hv]
    simp only [stationUpdateFieldsSet, habs, Fld.isSet]
    simp only [List.mem_append, Bool.false_eq_true, if_false]
    split_ifs <;> decide
  · intro p m h hnull
    have hv := validate_StationUpdate_ok_elim h
    have hn := stationUpdateVals_name hv
    rw [hnull] at hn
    simp only [validateOptStr, Except.ok.injEq] at hn
    refine ⟨hn.symm, ?_⟩
    rw [stationUpdateVals_fieldsSet hv]
    simp [stationUpdateFieldsSet, hnull, Fld.isSet]
  · intro n effs hn
    simp [validate_StationUpdate, stationUpdateVals, validateOptStr,
      validateOptStationEffList, stationUpdateFieldsSet, Fld.isSet, hn]
  · intro p m h
    exact methodUpdateVals_fieldsSet (validate_MethodUpdate_ok_elim h)
  · intro p m h habs
    have hv := validate_MethodUpdate_ok_elim h
    have hn := methodUpdateVals_name hv
    rw [habs] at hn
    simp only [validateOptStr, Except.ok.injEq] at hn
    refine ⟨hn.symm, ?_⟩
    rw [methodUpdateVals_fieldsSet hv]
    simp only [methodUpdateFieldsSet, habs, Fld.isSet]
    simp only [List.mem_append, Bool.false_eq_true, if_false]
    split_ifs <;> decide
  · intro p m h hnull
    have hv := validate_MethodUpdate_ok_elim h
    have hn := methodUpdateVals_name hv
    rw [hnull] at hn
    simp only [validateOptStr, Except.ok.injEq] at hn
    refine ⟨hn.symm, ?_⟩
    rw [methodUpdateVals_fieldsSet hv]
    simp [methodUpdateFieldsSet, hnull, Fld.isSet]
  · intro n effs hn heff
    simp [validate_MethodUpdate, methodUpdateVals, validateOptStr,
      validateOptMethodEffList, methodUpdateFieldsSet, Fld.isSet, hn, heff]
  · intro p m h
    exact miningSessionUpdateVals_fieldsSet (validate_MiningSessionUpdate_ok_elim h)
  · intro p m h habs
    have hv := validate_MiningSessionUpdate_ok_elim h
    have hn := miningSessionUpdateVals_name hv
    rw [habs] at hn
    simp only [validateOptStr, Except.ok.injEq] at hn
    refine ⟨hn.symm, ?_⟩
    rw [miningSessionUpdateVals_fieldsSet hv]
    simp only [miningSessionUpdateFieldsSet, habs, Fld.isSet]
    simp only [List.mem_append, Bool.false_eq_true, if_false]
    split_ifs <;> decide
  · intro p m h hnull
    have hv := validate_MiningSessionUpdate_ok_elim h
    have hn := miningSessionUpdateVals_name hv
    rw [hnull] at hn
    simp only [validateOptStr, Except.ok.injEq] at hn
    refine ⟨hn.symm, ?_⟩
    rw [miningSessionUpdateVals_fieldsSet hv]
    simp [miningSessionUpdateFieldsSet, hnull, Fld.isSet]
  · intro n ar ys yu ui hn
    simp [validate_MiningSessionUpdate, miningSessionUpdateVals, validateOptStr,
      validateOptAny, miningSessionUpdateFieldsSet, Fld.isSet, hn]
  · intro p m h
    exact friendshipUpdateVals_fieldsSet (validate_FriendshipUpdate_ok_elim h)
  · intro p m h habs
    have hv := validate_FriendshipUpdate_ok_elim h
    have hn := friendshipUpdateVals_name hv
    rw [habs] at hn
    simp only [validateOptStr, Except.ok.injEq] at hn
    refine ⟨hn.symm, ?_⟩
    rw [friendshipUpdateVals_fieldsSet hv]
    simp only [friendshipUpdateFieldsSet, habs, Fld.isSet]
    simp only [List.mem_append, Bool.false_eq_true, if_false]
    split_ifs <;> decide
  · intro p m h hnull
    have hv := validate_FriendshipUpdate_ok_elim h
    have hn := friendshipUpdateVals_name hv
    rw [hnull] at hn
    simp only [validateOptStr, Except.ok.injEq] at hn
    refine ⟨hn.symm, ?_⟩
    rw [friendshipUpdateVals_fieldsSet hv]
    simp [friendshipUpdateFieldsSet, hnull, Fld.isSet]
  · intro ui fi un fn nm c hun hfn hnm
    simp [validate_FriendshipUpdate, friendshipUpdateVals, validateReqAny,
      validateOptStr, validateOptAny, friendshipUpdateFieldsSet, Fld.isSet,
      hun, hfn, hnm]

/-- Witness for C3: a full concrete payload of each of the six Update
schemas round-trips, and the all-absent `UserUpdate` payload parses with
`name` equal to `none` and outside the fields-set. -/
theorem claim3_update_absent_null_roundtrip_witness :
    (validate_UserUpdate
        ⟨.val ['n'], .val ['a', '@', 'b'], .val ['p'], .val ['p'],
          .val true, .val true, .val []⟩ =
      .ok ⟨some ['n'], some ['a', '@', 'b'], some ['p'], some ['p'],
        some true, some true, some [],
        ["name", "mail", "password", "password_confirm", "is_google",
          "is_active", "scopes"]⟩) ∧
    ((⟨none, none, none, none, none, none, none, []⟩ : UserUpdate).name = none ∧
      "name" ∉ (⟨none, none, none, none, none, none, none, []⟩ : UserUpdate).fieldsSet) ∧
    validate_OreUpdate ⟨.val ['o']⟩ = .ok ⟨some ['o'], ["name"]⟩ ∧
    validate_StationUpdate ⟨.val ['s'], .val [⟨2, 7, some ['i']⟩]⟩ =
      .ok ⟨some ['s'], some [⟨2, 7, some ['i']⟩], ["name", "efficiencies"]⟩ ∧
    validate_MethodUpdate ⟨.val ['m'], .val [⟨1, 2, 7, some ['i']⟩]⟩ =
      .ok ⟨some ['m'], some [⟨1, 2, 7, some ['i']⟩], ["name", "efficiencies"]⟩ ∧
    validate_MiningSessionUpdate ⟨.val ['x'], .val 3, .val 4, .val 5, .val []⟩ =
      .ok ⟨some ['x'], some 3, some 4, some 5, some [],
        ["name", "archived", "yield_scu", "yield_uec", "users_invited"]⟩ ∧
    validate_FriendshipUpdate
        ⟨.val 1, .val ['u'], .val 2, .val ['f'], .val 3, .val ['n']⟩ =
      .ok ⟨1, some ['u'], 2, some ['f'], some 3, some ['n'],
        ["user_id", "user_name", "friend_id", "friend_name", "confirmed",
          "name"]⟩ :=
  ⟨claim3_update_absent_null_roundtrip.1.2.2.2 ['n'] ['a', '@', 'b'] ['p'] true true []
      (by decide) (by decide) (by decide) (by decide) (by decide),
   claim3_update_absent_null_roundtrip.1.2.1
      ⟨.absent, .absent, .absent, .absent, .absent, .absent, .absent⟩ _
      (by decide) rfl,
   claim3_update_absent_null_roundtrip.2.1.2.2.2 ['o'] (by decide),
   claim3_update_absent_null_roundtrip.2.2.1.2.2.2 ['s'] [⟨2, 7, some ['i']⟩]
      (by decide),
   claim3_update_absent_null_roundtrip.2.2.2.1.2.2.2 ['m'] [⟨1, 2, 7, some ['i']⟩]
      (by decide) (by norm_num [methodEffElemOk]),
   claim3_update_absent_null_roundtrip.2.2.2.2.1.2.2.2 ['x'] 3 4 5 [] (by decide),
   claim3_update_absent_null_roundtrip.2.2.2.2.2.2.2.2 1 2 ['u'] ['f'] ['n'] 3
      (by decide) (by decide) (by decide)⟩

/-- C6: a supplied `mail` value passes the regex check exactly when it has
the shape "one or more non-`@` characters, one `@`, one or more non-`@`
characters"; a supplied value without that shape makes `UserCreate` and
`UserUpdate` validation fail with an error on the `mail` field, and a value
of that shape within the 250-character limit passes the mail-field check. -/
theorem claim6_mail_shape_validation :
    (∀ s : List Char, mailRegexOk s = true ↔ mailShape s) ∧
    (∀ (p : UserCreatePayload) (s : List Char), p.mail = .val s →
      ¬ mailShape s → ∃ e ∈ errsOf (validate_UserCreate p), e.loc = "mail") ∧
    (∀ (p : UserUpdatePayload) (s : List Char), p.mail = .val s →
      ¬ mailShape s → ∃ e ∈ errsOf (validate_UserUpdate p), e.loc = "mail") ∧
    (∀ s : List Char, mailShape s → s.length ≤ 250 →
      validateMailReq (.val s) = .ok s ∧ validateMailOpt (.val s) = .ok (some s)) := by
  refine ⟨mailRegexOk_iff, ?_, ?_, ?_⟩
  · intro p s hp hsh
    have hro : mailRegexOk s = false := by
      cases hro : mailRegexOk s with
      | false => rfl
      | true => exact absurd ((mailRegexOk_iff s).mp hro) hsh
    have hex : ∃ k, validateMailReq (Fld.val s) = .error k := by
      by_cases hlen : s.length ≤ 250
      · exact ⟨.regexMismatch, by simp [validateMailReq, hlen, hro]⟩
      · exact ⟨.tooLong, by simp [validateMailReq, hlen]⟩
    obtain ⟨k, hvm⟩ := hex
    refine ⟨⟨"mail", k⟩, ?_, rfl⟩
    rw [errsOf_validate_UserCreate]
    simp [userCreateErrs, hp, hvm, stepErrs]
  · intro p s hp hsh
    have hro : mailRegexOk s = false := by
      cases hro : mailRegexOk s with
      | false => rfl
      | true => exact absurd ((mailRegexOk_iff s).mp hro) hsh
    have hex : ∃ k, validateMailOpt (Fld.val s) = .error k := by
      by_cases hlen : s.length ≤ 250
      · exact ⟨.regexMismatch, by simp [validateMailOpt, hlen, hro]⟩
      · exact ⟨.tooLong, by simp [validateMailOpt, hlen]⟩
    obtain ⟨k, hvm⟩ := hex
    refine ⟨⟨"mail", k⟩, ?_, rfl⟩
    rw [errsOf_validate_UserUpdate]
    simp [userUpdateErrs, hp, hvm, stepErrs]
  · intro s hsh hlen
    have hro := (mailRegexOk_iff s).mpr hsh
    exact ⟨by simp [validateMailReq, hlen, hro], by simp [validateMailOpt, hlen, hro]⟩

/-- Witness for C6: the value "aa" (no `@`) makes `UserCreate` validation
fail on `mail`, and the value "a@b" passes both mail-field checks. -/
theorem claim6_mail_shape_validation_witness :
    (∃ e ∈ errsOf (validate_UserCreate
      ⟨.absent, .val ['a', 'a'], .absent, .absent, .absent, .absent, .absent⟩),
      e.loc = "mail") ∧
    validateMailReq (.val ['a', '@', 'b']) = .ok ['a', '@', 'b'] ∧
    validateMailOpt (.val ['a', '@', 'b']) = .ok (some ['a', '@', 'b']) :=
  ⟨claim6_mail_shape_validation.2.1 _ ['a', 'a'] rfl
      (fun hsh => absurd ((mailRegexOk_iff _).mpr hsh) (by decide)),
   (claim6_mail_shape_validation.2.2.2 ['a', '@', 'b']
      ⟨['a'], ['b'], rfl, by decide, by decide, by decide, by decide⟩ (by decide)).1,
   (claim6_mail_shape_validation.2.2.2 ['a', '@', 'b']
      ⟨['a'], ['b'], rfl, by decide, by decide, by decide, by decide⟩ (by decide)).2⟩

end SCRefinery
